import Mathlib

/-!
Shallow embedding of the data-model layer of the blog application
(`blog/models.py`): the entities `Post`, `Tag`, `Comment`, the user table,
the two many-to-many association tables (likes, post-tag links), and the
query helpers `TagQuerySet.popular`, `PostQuerySet.base_post_queryset`,
`PostQuerySet.popular` and `PostQuerySet.fetch_with_comments_count`.

A relational database state is modelled as lists of rows; queryset
operations become pure functions from a database state and an
already-selected row list to the annotated result.  Fallible code (the
dictionary lookup in `fetch_with_comments_count`, which can raise a
`KeyError`) returns `Option`.
-/

namespace Blog

/-- A row of the framework's user table.  Only the columns the blog code
touches are modelled. -/
structure User where
  id : Nat
  username : String
  is_staff : Bool
deriving DecidableEq, Repr

/-- A row of the `Post` table (`blog/models.py`, class `Post`): title, text,
slug, image reference, publication timestamp and the `author` foreign key. -/
structure Post where
  id : Nat
  title : String
  text : String
  slug : String
  image : String
  published_at : Nat
  author_id : Nat
deriving DecidableEq, Repr

/-- A row of the `Tag` table (`blog/models.py`, class `Tag`): a unique short
title. -/
structure Tag where
  id : Nat
  title : String
deriving DecidableEq, Repr

/-- A row of the `Comment` table (`blog/models.py`, class `Comment`): the
`post` foreign key (cascade on delete), the `author` foreign key, the text
and the publication timestamp. -/
structure Comment where
  id : Nat
  post_id : Nat
  author_id : Nat
  text : String
  published_at : Nat
deriving DecidableEq, Repr

/-- The relational database state: one list of rows per table.  `likes` is
the many-to-many table behind `Post.likes` (pairs `(post_id, user_id)`) and
`postTags` the one behind `Post.tags` (pairs `(post_id, tag_id)`). -/
structure DB where
  users : List User
  posts : List Post
  tags : List Tag
  comments : List Comment
  likes : List (Nat × Nat)
  postTags : List (Nat × Nat)
deriving DecidableEq, Repr

/-- An in-memory (materialized) `Post` object: the row plus the transient
`comments_count` attribute that `fetch_with_comments_count` assigns
(`none` before assignment). -/
structure MatPost where
  post : Post
  comments_count : Option Nat := none
deriving DecidableEq, Repr

/-- Descending-by-count order on annotated rows: the relation behind
`order_by` of a `-..._count` expression. -/
def byCountDesc {α : Type} (a b : α × Nat) : Prop := b.2 ≤ a.2

instance {α : Type} : DecidableRel (@byCountDesc α) :=
  fun a b => Nat.decLe b.2 a.2

instance {α : Type} : IsTotal (α × Nat) byCountDesc :=
  ⟨fun a b => Nat.le_total b.2 a.2⟩

instance {α : Type} : IsTrans (α × Nat) byCountDesc :=
  ⟨fun _ _ _ h1 h2 => Nat.le_trans h2 h1⟩

/-- Semantics of `Count('comments')` for one post id: the number of rows of
the `Comment` table whose `post` foreign key is that id. -/
def countCommentRows (db : DB) (pid : Nat) : Nat :=
  db.comments.countP (fun c => c.post_id = pid)

/-- The loop `for post in self: post.comments_count = count_for_id[post.id]`
of `fetch_with_comments_count`, aborting with `none` at the first missing
dictionary key (the raised `KeyError`). -/
def assignCounts (count_for_id : Nat → Option Nat) :
    List MatPost → Option (List MatPost)
  | [] => some []
  | p :: rest =>
    match count_for_id p.post.id, assignCounts count_for_id rest with
    | some n, some rest' => some ({ p with comments_count := some n } :: rest')
    | _, _ => none

/-- The dictionary `count_for_id` built inside `fetch_with_comments_count`:
`dict(posts_with_comments.values_list('id', 'comments_count'))`, looked up
at key `i`.  The underlying query is the `Post` table filtered to the given
ids and annotated with `Count('comments')`. -/
def count_for_id (db : DB) (ids : List Nat) (i : Nat) : Option Nat :=
  (((db.posts.filter (fun p => p.id ∈ ids)).map
      (fun p => (p.id, countCommentRows db p.id))).find?
    (fun x => x.1 = i)).map Prod.snd

/-- `PostQuerySet.fetch_with_comments_count` (`blog/models.py` lines 25-48):
collects the ids of the already-materialized posts, re-queries the `Post`
table restricted to those ids annotated with `Count('comments')`, turns the
`(id, comments_count)` pairs into a dictionary, and assigns the looked-up
count onto each in-memory post.  The Python dictionary access
`count_for_id[post.id]` raises `KeyError` when the id is absent, so the
whole operation returns `Option`: `none` models the raised `KeyError`. -/
def PostQuerySet.fetch_with_comments_count (db : DB) (self : List MatPost) :
    Option (List MatPost) :=
  let most_popular_posts_ids := self.map (fun p => p.post.id)
  assignCounts (count_for_id db most_popular_posts_ids) self

/-- Semantics of `Count('posts')` on a tag: the number of rows of the
post-tag association table whose tag side is that tag (a non-`DISTINCT`
`COUNT` over the join). -/
def countPostRowsForTag (db : DB) (tid : Nat) : Nat :=
  db.postTags.countP (fun pt => pt.2 = tid)

/-- Semantics of `Count('likes')` on a post: the number of rows of the
likes association table whose post side is that post (a non-`DISTINCT`
`COUNT` over the join). -/
def countLikeRows (db : DB) (pid : Nat) : Nat :=
  db.likes.countP (fun l => l.1 = pid)

/-- Semantics of `Count('likes', distinct=True)` on a post: the number of
distinct users appearing in likes rows of that post. -/
def countLikesDistinct (db : DB) (pid : Nat) : Nat :=
  ((db.likes.filter (fun l => l.1 = pid)).map Prod.snd).dedup.length

/-- `TagQuerySet.popular` (`blog/models.py` lines 8-10):
`self.annotate(posts_count=Count('posts')).order_by('-posts_count')`.
Every selected tag row is paired with its `posts_count` annotation and the
result is ordered by descending count (tie order is unspecified by the
database; a sort refines it). -/
def TagQuerySet.popular (db : DB) (self : List Tag) : List (Tag × Nat) :=
  List.insertionSort byCountDesc
    (self.map (fun t => (t, countPostRowsForTag db t.id)))

/-- `PostQuerySet.popular` (`blog/models.py` lines 22-23):
`self.annotate(likes_count=Count('likes')).order_by('-likes_count')`. -/
def PostQuerySet.popular (db : DB) (self : List Post) : List (Post × Nat) :=
  List.insertionSort byCountDesc
    (self.map (fun p => (p, countLikeRows db p.id)))

/-- A fully hydrated post as produced by `base_post_queryset`: the row, the
`select_related` author, the prefetched tags (each with its `posts_count`
annotation), the prefetched comments (each with its `select_related`
author) and the `likes_count` annotation. -/
structure HydratedPost where
  post : Post
  author : Option User
  tags : List (Tag × Nat)
  comments : List (Comment × Option User)
  likes_count : Nat
deriving DecidableEq, Repr

/-- The primary query of `base_post_queryset`: the selected post rows with
the `author` join (`select_related('author')`) and the
`likes_count=Count('likes', distinct=True)` annotation.  The prefetched
relations are not yet populated. -/
def primaryQuery (db : DB) (self : List Post) : List HydratedPost :=
  self.map (fun p =>
    { post := p
      author := db.users.find? (fun u => u.id = p.author_id)
      tags := []
      comments := []
      likes_count := countLikesDistinct db p.id })

/-- The batch query behind `Prefetch('tags',
queryset=Tag.objects.annotate(posts_count=Count('posts')))`: for every
fetched post, the tags linked to it through the association table, each
annotated with its `posts_count`. -/
def tagsBatch (db : DB) (acc : List HydratedPost) : List HydratedPost :=
  acc.map (fun hp =>
    { hp with
      tags := (db.tags.filter (fun t => (hp.post.id, t.id) ∈ db.postTags)).map
        (fun t => (t, countPostRowsForTag db t.id)) })

/-- The batch query behind `Prefetch('comments',
queryset=Comment.objects.select_related('author'))`: for every fetched
post, its comments, each with the joined author row. -/
def commentsBatch (db : DB) (acc : List HydratedPost) : List HydratedPost :=
  acc.map (fun hp =>
    { hp with
      comments := (db.comments.filter (fun c => c.post_id = hp.post.id)).map
        (fun c => (c, db.users.find? (fun u => u.id = c.author_id))) })

/-- Modelled from the spec: the framework executes a queryset as exactly one
primary query (carrying the `select_related` join and the annotations)
followed by one batch query per `prefetch_related` lookup.  The two lookups
of `base_post_queryset` are its `Prefetch('tags', ...)` and
`Prefetch('comments', ...)`. -/
def hydrationBatches (db : DB) : List (List HydratedPost → List HydratedPost) :=
  [tagsBatch db, commentsBatch db]

/-- `PostQuerySet.base_post_queryset` (`blog/models.py` lines 14-20):
`select_related('author')`, the two `prefetch_related` lookups, and
`annotate(likes_count=Count('likes', distinct=True))`. -/
def PostQuerySet.base_post_queryset (db : DB) (self : List Post) :
    List HydratedPost :=
  (hydrationBatches db).foldl (fun acc f => f acc) (primaryQuery db self)

/-- Modelled from the spec: evaluating `base_post_queryset` while counting
the database round trips — the primary query counts one, and each
`prefetch_related` batch counts one more. -/
def runHydrationCounting (db : DB) (self : List Post) :
    List HydratedPost × Nat :=
  (hydrationBatches db).foldl (fun acc f => (f acc.1, acc.2 + 1))
    (primaryQuery db self, 1)

/-- `Tag.clean` (`blog/models.py` lines 93-94): `self.title =
self.title.lower()` — lowercases the title during model validation,
character by character. -/
def Tag.clean (t : Tag) : Tag :=
  { t with title := String.mk (t.title.data.map Char.toLower) }

/-- Modelled from the spec: the cascade deletion of a post.  The `Comment`
table declares `on_delete=models.CASCADE` on its `post` foreign key, so
deleting a post row removes all comment rows referencing it; the two
many-to-many association tables drop their rows for the post as well.  The
delete machinery itself lives in the framework, outside this repository. -/
def DB.deletePost (db : DB) (pid : Nat) : DB :=
  { db with
    posts := db.posts.filter (fun p => p.id ≠ pid)
    comments := db.comments.filter (fun c => c.post_id ≠ pid)
    likes := db.likes.filter (fun l => l.1 ≠ pid)
    postTags := db.postTags.filter (fun pt => pt.1 ≠ pid) }

/-! ## Concrete database states used by witnesses -/

/-- A small concrete database: two staff-authored posts, two tags, two
comments (both on post 1, none on post 2), three likes rows and three
post-tag rows. -/
def dbW : DB :=
  { users := [{ id := 1, username := "alice", is_staff := true },
              { id := 2, username := "bob", is_staff := false }]
    posts := [{ id := 1, title := "A", text := "ta", slug := "a",
                image := "ia", published_at := 10, author_id := 1 },
              { id := 2, title := "B", text := "tb", slug := "b",
                image := "ib", published_at := 20, author_id := 1 }]
    tags := [{ id := 1, title := "django" }, { id := 2, title := "web" }]
    comments := [{ id := 1, post_id := 1, author_id := 2, text := "c1",
                   published_at := 11 },
                 { id := 2, post_id := 1, author_id := 2, text := "c2",
                   published_at := 12 }]
    likes := [(1, 1), (1, 2), (2, 1)]
    postTags := [(1, 1), (1, 2), (2, 1)] }

/-- The two posts of `dbW`, materialized in memory with no comment count
assigned yet. -/
def selfW : List MatPost :=
  [{ post := { id := 1, title := "A", text := "ta", slug := "a",
               image := "ia", published_at := 10, author_id := 1 } },
   { post := { id := 2, title := "B", text := "tb", slug := "b",
               image := "ib", published_at := 20, author_id := 1 } }]

/-! ## Theorems -/

/-- C6: `Tag.clean` replaces the title by its lowercase form, touches no
other field, and in particular stores the input `"Django"` as
`"django"`. -/
theorem tag_clean_lowercases_title (t : Tag) :
    (Tag.clean t).title.data = t.title.data.map Char.toLower ∧
    (Tag.clean t).id = t.id ∧
    Tag.clean { id := 7, title := "Django" } = { id := 7, title := "django" } :=
  ⟨rfl, rfl, by decide⟩

/-- C7: provided every comment references an existing post, after deleting a
post no comment referencing it remains, and every remaining comment still
references an existing post. -/
theorem delete_post_cascades_comments (db : DB) (pid : Nat)
    (hinv : ∀ c ∈ db.comments, ∃ p ∈ db.posts, p.id = c.post_id) :
    (∀ c ∈ (db.deletePost pid).comments, c.post_id ≠ pid) ∧
    (∀ c ∈ (db.deletePost pid).comments,
      ∃ p ∈ (db.deletePost pid).posts, p.id = c.post_id) := by
  constructor
  · intro c hc
    have := List.of_mem_filter hc
    simpa using this
  · intro c hc
    have hcmem : c ∈ db.comments := List.mem_of_mem_filter hc
    have hcne : c.post_id ≠ pid := by
      have := List.of_mem_filter hc
      simpa using this
    obtain ⟨p, hp, hpid⟩ := hinv c hcmem
    refine ⟨p, ?_, hpid⟩
    simp only [DB.deletePost, List.mem_filter, decide_eq_true_eq]
    exact ⟨hp, by simpa [hpid] using hcne⟩

/-- Witness for C7 at the concrete database `dbW`, deleting post 1. -/
theorem delete_post_cascades_comments_witness :
    (∀ c ∈ (dbW.deletePost 1).comments, c.post_id ≠ 1) ∧
    (∀ c ∈ (dbW.deletePost 1).comments,
      ∃ p ∈ (dbW.deletePost 1).posts, p.id = c.post_id) :=
  delete_post_cascades_comments dbW 1 (by decide)

/-- C8: evaluating `base_post_queryset` issues exactly three database
queries — one primary query plus one per `prefetch_related` lookup — for
every database state and every selected row set, so the query count is a
constant independent of the number of posts. -/
theorem base_post_queryset_constant_queries (db : DB) (self : List Post) :
    runHydrationCounting db self = (PostQuerySet.base_post_queryset db self, 3) :=
  rfl

/-- When the post-tag association table has no duplicate rows (its unique
constraint), the `Count('posts')` row count for a tag equals the number of
distinct posts linked to that tag. -/
theorem countPostRowsForTag_eq_card (db : DB) (hnd : db.postTags.Nodup)
    (tid : Nat) :
    countPostRowsForTag db tid =
      ((db.postTags.filter (fun pt => pt.2 = tid)).map Prod.fst).toFinset.card := by
  have hfil : (db.postTags.filter (fun pt => pt.2 = tid)).Nodup :=
    hnd.filter _
  have hmap : ((db.postTags.filter (fun pt => pt.2 = tid)).map Prod.fst).Nodup := by
    refine hfil.map_on ?_
    intro x hx y hy hxy
    have hx2 : x.2 = tid := by simpa using List.of_mem_filter hx
    have hy2 : y.2 = tid := by simpa using List.of_mem_filter hy
    exact Prod.ext hxy (hx2.trans hy2.symm)
  rw [List.toFinset_card_of_nodup hmap, List.length_map,
    countPostRowsForTag, List.countP_eq_length_filter]

/-- C3: `TagQuerySet.popular` orders its result so that consecutive
`posts_count` annotations are non-increasing, and (when the post-tag table
satisfies its unique constraint) annotates every tag with the number of
posts associated with it. -/
theorem tag_popular_sorted_and_counts (db : DB) (self : List Tag)
    (hnd : db.postTags.Nodup) :
    (TagQuerySet.popular db self).Pairwise (fun a b => b.2 ≤ a.2) ∧
    ∀ tn ∈ TagQuerySet.popular db self,
      tn.2 = ((db.postTags.filter (fun pt => pt.2 = tn.1.id)).map
        Prod.fst).toFinset.card := by
  constructor
  · exact List.sorted_insertionSort byCountDesc _
  · intro tn htn
    have hmem : tn ∈ self.map (fun t => (t, countPostRowsForTag db t.id)) :=
      (List.mem_insertionSort byCountDesc).mp htn
    obtain ⟨t, _, rfl⟩ := List.mem_map.mp hmem
    exact countPostRowsForTag_eq_card db hnd t.id

/-- Witness for C3 at the concrete database `dbW` and its two tags. -/
theorem tag_popular_sorted_and_counts_witness :
    (TagQuerySet.popular dbW dbW.tags).Pairwise (fun a b => b.2 ≤ a.2) ∧
    ∀ tn ∈ TagQuerySet.popular dbW dbW.tags,
      tn.2 = ((dbW.postTags.filter (fun pt => pt.2 = tn.1.id)).map
        Prod.fst).toFinset.card :=
  tag_popular_sorted_and_counts dbW dbW.tags (by decide)

/-- C4: `PostQuerySet.popular` orders its result so that consecutive
`likes_count` annotations are non-increasing, and annotates every post with
its `Count('likes')` value — the number of likes rows referencing it. -/
theorem post_popular_sorted_and_counts (db : DB) (self : List Post) :
    (PostQuerySet.popular db self).Pairwise (fun a b => b.2 ≤ a.2) ∧
    ∀ pn ∈ PostQuerySet.popular db self,
      pn.2 = (db.likes.filter (fun l => l.1 = pn.1.id)).length := by
  constructor
  · exact List.sorted_insertionSort byCountDesc _
  · intro pn hpn
    have hmem : pn ∈ self.map (fun p => (p, countLikeRows db p.id)) :=
      (List.mem_insertionSort byCountDesc).mp hpn
    obtain ⟨p, _, rfl⟩ := List.mem_map.mp hmem
    exact List.countP_eq_length_filter _ _

/-- C10: both popularity queries return exactly the input rows, annotated
and reordered — the underlying tags (respectively posts) of the result are
a permutation of the selected rows, so nothing is dropped or added. -/
theorem popular_queries_are_permutations (db : DB) (tagRows : List Tag)
    (postRows : List Post) :
    ((TagQuerySet.popular db tagRows).map Prod.fst).Perm tagRows ∧
    ((PostQuerySet.popular db postRows).map Prod.fst).Perm postRows := by
  constructor
  · have h := (List.perm_insertionSort byCountDesc
      (tagRows.map (fun t => (t, countPostRowsForTag db t.id)))).map Prod.fst
    have heq : ((tagRows.map (fun t => (t, countPostRowsForTag db t.id))).map
        Prod.fst) = tagRows := by
      simp [Function.comp_def]
    conv_rhs => rw [← heq]
    exact h
  · have h := (List.perm_insertionSort byCountDesc
      (postRows.map (fun p => (p, countLikeRows db p.id)))).map Prod.fst
    have heq : ((postRows.map (fun p => (p, countLikeRows db p.id))).map
        Prod.fst) = postRows := by
      simp [Function.comp_def]
    conv_rhs => rw [← heq]
    exact h

/-- Evaluating the hydration pipeline of `base_post_queryset` yields, for
every selected post row, the fully populated record: author join, annotated
prefetched tags, prefetched comments with their authors, and the distinct
like count. -/
theorem base_post_queryset_eq_map (db : DB) (self : List Post) :
    PostQuerySet.base_post_queryset db self = self.map (fun p =>
      { post := p
        author := db.users.find? (fun u => u.id = p.author_id)
        tags := (db.tags.filter (fun t => (p.id, t.id) ∈ db.postTags)).map
          (fun t => (t, countPostRowsForTag db t.id))
        comments := (db.comments.filter (fun c => c.post_id = p.id)).map
          (fun c => (c, db.users.find? (fun u => u.id = c.author_id)))
        likes_count := countLikesDistinct db p.id }) := by
  simp only [PostQuerySet.base_post_queryset, hydrationBatches, List.foldl,
    primaryQuery, tagsBatch, commentsBatch, List.map_map]
  rfl

/-- C5: every post returned by `base_post_queryset` carries a `likes_count`
equal to the number of distinct liking users, an author that is the
matching user row, prefetched tags from the association table each
annotated with the number of posts linked to them, and exactly the comments
of that post, each paired with its matching author row. -/
theorem base_post_queryset_hydration (db : DB) (self : List Post)
    (hnd : db.postTags.Nodup) (hp : HydratedPost)
    (hmem : hp ∈ PostQuerySet.base_post_queryset db self) :
    hp.likes_count =
        ((db.likes.filter (fun l => l.1 = hp.post.id)).map Prod.snd).toFinset.card
      ∧ (∀ u, hp.author = some u → u ∈ db.users ∧ u.id = hp.post.author_id)
      ∧ (∀ tn ∈ hp.tags, tn.1 ∈ db.tags ∧ (hp.post.id, tn.1.id) ∈ db.postTags ∧
          tn.2 = ((db.postTags.filter (fun pt => pt.2 = tn.1.id)).map
            Prod.fst).toFinset.card)
      ∧ (∀ ca ∈ hp.comments, ca.1 ∈ db.comments ∧ ca.1.post_id = hp.post.id ∧
          ∀ u, ca.2 = some u → u ∈ db.users ∧ u.id = ca.1.author_id)
      ∧ (∀ c ∈ db.comments, c.post_id = hp.post.id → ∃ a, (c, a) ∈ hp.comments) := by
  rw [base_post_queryset_eq_map] at hmem
  obtain ⟨p, -, rfl⟩ := List.mem_map.mp hmem
  refine ⟨?_, ?_, ?_, ?_, ?_⟩
  · exact (List.card_toFinset
      ((db.likes.filter (fun l => l.1 = p.id)).map Prod.snd)).symm
  · intro u hu
    exact ⟨List.mem_of_find?_eq_some hu, by simpa using List.find?_some hu⟩
  · intro tn htn
    obtain ⟨t, ht, rfl⟩ := List.mem_map.mp htn
    refine ⟨List.mem_of_mem_filter ht, ?_, countPostRowsForTag_eq_card db hnd t.id⟩
    simpa using List.of_mem_filter ht
  · intro ca hca
    obtain ⟨c, hc, rfl⟩ := List.mem_map.mp hca
    refine ⟨List.mem_of_mem_filter hc, by simpa using List.of_mem_filter hc, ?_⟩
    intro u hu
    exact ⟨List.mem_of_find?_eq_some hu, by simpa using List.find?_some hu⟩
  · intro c hc hcp
    exact ⟨db.users.find? (fun u => u.id = c.author_id),
      List.mem_map.mpr ⟨c, List.mem_filter.mpr ⟨hc, by simpa using hcp⟩, rfl⟩⟩

/-- The hydrated form of post 1 of `dbW`: author alice, both tags with
their post counts, both comments authored by bob, and two distinct
likers. -/
def hpW : HydratedPost :=
  { post := { id := 1, title := "A", text := "ta", slug := "a",
              image := "ia", published_at := 10, author_id := 1 }
    author := some { id := 1, username := "alice", is_staff := true }
    tags := [({ id := 1, title := "django" }, 2), ({ id := 2, title := "web" }, 1)]
    comments := [({ id := 1, post_id := 1, author_id := 2, text := "c1",
                    published_at := 11 },
                  some { id := 2, username := "bob", is_staff := false }),
                 ({ id := 2, post_id := 1, author_id := 2, text := "c2",
                    published_at := 12 },
                  some { id := 2, username := "bob", is_staff := false })]
    likes_count := 2 }

/-- Witness for C5 at the concrete database `dbW`, its two posts, and the
concrete hydrated post `hpW`. -/
theorem base_post_queryset_hydration_witness :
    hpW.likes_count =
        ((dbW.likes.filter (fun l => l.1 = hpW.post.id)).map Prod.snd).toFinset.card
      ∧ (∀ u, hpW.author = some u → u ∈ dbW.users ∧ u.id = hpW.post.author_id)
      ∧ (∀ tn ∈ hpW.tags, tn.1 ∈ dbW.tags ∧ (hpW.post.id, tn.1.id) ∈ dbW.postTags ∧
          tn.2 = ((dbW.postTags.filter (fun pt => pt.2 = tn.1.id)).map
            Prod.fst).toFinset.card)
      ∧ (∀ ca ∈ hpW.comments, ca.1 ∈ dbW.comments ∧ ca.1.post_id = hpW.post.id ∧
          ∀ u, ca.2 = some u → u ∈ dbW.users ∧ u.id = ca.1.author_id)
      ∧ (∀ c ∈ dbW.comments, c.post_id = hpW.post.id →
          ∃ a, (c, a) ∈ hpW.comments) :=
  base_post_queryset_hydration dbW dbW.posts (by decide) hpW (by decide)

/-- When the key is one of the requested ids and some post row carries it,
the dictionary lookup of `fetch_with_comments_count` yields the comment
count of that id. -/
theorem count_for_id_eq_some (db : DB) (ids : List Nat) (i : Nat)
    (hmem : i ∈ ids) (q : Post) (hq : q ∈ db.posts) (hqi : q.id = i) :
    count_for_id db ids i = some (countCommentRows db i) := by
  unfold count_for_id
  cases hfind : ((db.posts.filter (fun p => p.id ∈ ids)).map
      (fun p => (p.id, countCommentRows db p.id))).find? (fun x => x.1 = i) with
  | none =>
    exfalso
    have hqmem : (q.id, countCommentRows db q.id) ∈
        (db.posts.filter (fun p => p.id ∈ ids)).map
          (fun p => (p.id, countCommentRows db p.id)) :=
      List.mem_map.mpr ⟨q, List.mem_filter.mpr ⟨hq, by simpa [hqi] using hmem⟩, rfl⟩
    have hne := List.find?_eq_none.mp hfind _ hqmem
    simp [hqi] at hne
  | some x =>
    obtain ⟨p', hp', rfl⟩ := List.mem_map.mp (List.mem_of_find?_eq_some hfind)
    have hx1 : p'.id = i := by simpa using List.find?_some hfind
    simp [hx1]

/-- For a key that is one of the requested ids, the dictionary lookup of
`fetch_with_comments_count` misses exactly when no post row carries that
id. -/
theorem count_for_id_eq_none_iff (db : DB) (ids : List Nat) (i : Nat)
    (hmem : i ∈ ids) :
    count_for_id db ids i = none ↔ ∀ q ∈ db.posts, q.id ≠ i := by
  unfold count_for_id
  rw [Option.map_eq_none', List.find?_eq_none]
  constructor
  · intro h q hq hqi
    have hqmem : (q.id, countCommentRows db q.id) ∈
        (db.posts.filter (fun p => p.id ∈ ids)).map
          (fun p => (p.id, countCommentRows db p.id)) :=
      List.mem_map.mpr ⟨q, List.mem_filter.mpr ⟨hq, by simpa [hqi] using hmem⟩, rfl⟩
    have := h _ hqmem
    simp [hqi] at this
  · intro h x hx
    obtain ⟨p', hp', rfl⟩ := List.mem_map.mp hx
    simpa using h p' (List.mem_of_mem_filter hp')

/-- The assignment loop aborts exactly when some post's id misses the
dictionary. -/
theorem assignCounts_eq_none_iff (f : Nat → Option Nat) (l : List MatPost) :
    assignCounts f l = none ↔ ∃ p ∈ l, f p.post.id = none := by
  induction l with
  | nil => simp [assignCounts]
  | cons p rest ih =>
    cases hf : f p.post.id with
    | none =>
      simp only [assignCounts, hf]
      constructor
      · intro _
        exact ⟨p, List.mem_cons_self p rest, hf⟩
      · intro _
        trivial
    | some n =>
      cases hr : assignCounts f rest with
      | none =>
        simp only [assignCounts, hf, hr]
        constructor
        · intro _
          obtain ⟨q, hq, hqn⟩ := ih.mp hr
          exact ⟨q, List.mem_cons_of_mem p hq, hqn⟩
        · intro _
          trivial
      | some r =>
        simp [assignCounts, hf, hr, ← ih]

/-- When every post's id hits the dictionary, the assignment loop returns
the input posts in order, each with the looked-up count assigned. -/
theorem assignCounts_eq_map (f : Nat → Option Nat) (g : Nat → Nat)
    (l : List MatPost) (h : ∀ p ∈ l, f p.post.id = some (g p.post.id)) :
    assignCounts f l =
      some (l.map (fun p => { p with comments_count := some (g p.post.id) })) := by
  induction l with
  | nil => simp [assignCounts]
  | cons p rest ih =>
    have hp := h p (List.mem_cons_self p rest)
    have hrest := ih (fun q hq => h q (List.mem_cons_of_mem p hq))
    simp [assignCounts, hp, hrest]

/-- Whenever the assignment loop succeeds, the underlying post rows of the
result coincide, in order, with those of the input. -/
theorem assignCounts_preserves_posts (f : Nat → Option Nat)
    (l : List MatPost) : ∀ r, assignCounts f l = some r →
      r.map MatPost.post = l.map MatPost.post := by
  induction l with
  | nil =>
    intro r h
    simp only [assignCounts, Option.some.injEq] at h
    subst h
    rfl
  | cons p rest ih =>
    intro r h
    cases hf : f p.post.id with
    | none => simp [assignCounts, hf] at h
    | some n =>
      cases hr : assignCounts f rest with
      | none => simp [assignCounts, hf, hr] at h
      | some rest' =>
        simp only [assignCounts, hf, hr, Option.some.injEq] at h
        subst h
        simp [ih rest' hr]

/-- C1: when every materialized post's id is carried by some row of the
post table, `fetch_with_comments_count` succeeds and assigns to every post
a `comments_count` equal to the number of comment rows referencing it —
zero included for posts without comments. -/
theorem fetch_with_comments_count_correct (db : DB) (self : List MatPost)
    (h : ∀ p ∈ self, ∃ q ∈ db.posts, q.id = p.post.id) :
    PostQuerySet.fetch_with_comments_count db self =
      some (self.map (fun p =>
        { p with comments_count :=
                   some ((db.comments.filter
                     (fun c => c.post_id = p.post.id)).length) })) := by
  show assignCounts (count_for_id db (self.map (fun p => p.post.id))) self = _
  rw [assignCounts_eq_map (count_for_id db (self.map (fun p => p.post.id)))
    (fun i => countCommentRows db i) self ?_]
  · simp [countCommentRows, List.countP_eq_length_filter]
  · intro p hp
    obtain ⟨q, hq, hqi⟩ := h p hp
    exact count_for_id_eq_some db _ _ (List.mem_map.mpr ⟨p, hp, rfl⟩) q hq hqi

/-- Witness for C1 at the concrete database `dbW` and its two materialized
posts: post 1 receives count 2 and post 2 receives count 0. -/
theorem fetch_with_comments_count_correct_witness :
    PostQuerySet.fetch_with_comments_count dbW selfW =
      some (selfW.map (fun p =>
        { p with comments_count :=
                   some ((dbW.comments.filter
                     (fun c => c.post_id = p.post.id)).length) })) :=
  fetch_with_comments_count_correct dbW selfW (by decide)

/-- C2: `fetch_with_comments_count` raises (returns `none`) exactly when
some materialized post's id is absent from the backfill aggregation — that
is, no row of the post table carries it; when every id is present the
operation succeeds. -/
theorem fetch_with_comments_count_fails_iff (db : DB) (self : List MatPost) :
    PostQuerySet.fetch_with_comments_count db self = none ↔
      ∃ p ∈ self, ∀ q ∈ db.posts, q.id ≠ p.post.id := by
  show assignCounts (count_for_id db (self.map (fun p => p.post.id))) self = none ↔ _
  rw [assignCounts_eq_none_iff]
  constructor
  · rintro ⟨p, hp, hpn⟩
    exact ⟨p, hp,
      (count_for_id_eq_none_iff db _ _ (List.mem_map.mpr ⟨p, hp, rfl⟩)).mp hpn⟩
  · rintro ⟨p, hp, hq⟩
    exact ⟨p, hp,
      (count_for_id_eq_none_iff db _ _ (List.mem_map.mpr ⟨p, hp, rfl⟩)).mpr hq⟩

/-- C9: whenever `fetch_with_comments_count` succeeds, the result is the
input collection itself — same underlying post rows, in the same order, so
every field other than the transient `comments_count` is unchanged. -/
theorem fetch_with_comments_count_frame (db : DB) (self result : List MatPost)
    (h : PostQuerySet.fetch_with_comments_count db self = some result) :
    result.map MatPost.post = self.map MatPost.post ∧
    result.length = self.length := by
  have h' : assignCounts (count_for_id db (self.map (fun p => p.post.id)))
      self = some result := h
  have hmap := assignCounts_preserves_posts
    (count_for_id db (self.map (fun p => p.post.id))) self result h'
  refine ⟨hmap, ?_⟩
  have := congrArg List.length hmap
  simpa using this

/-- The output of `fetch_with_comments_count` on `dbW` and `selfW`, written
out: both posts with their comment counts assigned. -/
def resultW : List MatPost :=
  [{ post := { id := 1, title := "A", text := "ta", slug := "a",
               image := "ia", published_at := 10, author_id := 1 }
     comments_count := some 2 },
   { post := { id := 2, title := "B", text := "tb", slug := "b",
               image := "ib", published_at := 20, author_id := 1 }
     comments_count := some 0 }]

/-- Witness for C9 at the concrete database `dbW`. -/
theorem fetch_with_comments_count_frame_witness :
    resultW.map MatPost.post = selfW.map MatPost.post ∧
    resultW.length = selfW.length :=
  fetch_with_comments_count_frame dbW selfW resultW (by decide)

end Blog
